import Mathlib

/-!
FELF stager (`shellcode_client/srcs/client.c`).

A shallow embedding of `main` of the client: the length read, the payload read
loop, the FELF header checks, the aligned `VirtualAlloc` request, the `memcpy`
of the body and the jump to the entry point.

Conventions of the embedding.

* `unsigned int` values are natural numbers below `2^32`; every arithmetic
  operation of the source on them is reduced modulo `2^32` explicitly.
* A byte is a `Fin 256`.  A C pointer into a buffer is the buffer, a function
  from offsets to bytes, together with an offset.
* Everything the operating system decides is a field of `Env`: the results of
  `WSAStartup`, `socket`, `connect`, `malloc`, `VirtualAlloc`, the successive
  return values of `recv`, and the bytes the controller sends.
* What the process does to the outside is recorded in a list of `Event`s.
-/

namespace Felf

/-- A byte, the value of an `unsigned char`. -/
abbrev Byte := Fin 256

/-- Byte order in which the host lays out an `unsigned int` in memory.  The
source reads the words through `unsigned int*` casts, so the order is the
one of the machine the client runs on. -/
inductive Endian where
  | little
  | big
  deriving DecidableEq, Repr

/-- Unsigned 32-bit addition, `a + b` on `unsigned int`. -/
def add32 (a b : Nat) : Nat := (a + b) % 4294967296

/-- Unsigned 32-bit subtraction, `a - b` on `unsigned int`. -/
def sub32 (a b : Nat) : Nat := (a + (4294967296 - b % 4294967296)) % 4294967296

/-- The `unsigned int` stored in four consecutive bytes `b0 b1 b2 b3`
(lowest address first). -/
def word32 (e : Endian) (b0 b1 b2 b3 : Byte) : Nat :=
  match e with
  | .little => b0.val + 256 * b1.val + 65536 * b2.val + 16777216 * b3.val
  | .big => b3.val + 256 * b2.val + 65536 * b1.val + 16777216 * b0.val

/-- The expression `*((unsigned int*)ptr)++`: the word at offset `ptr` of the
buffer, and the advanced offset. -/
def rdU32 (e : Endian) (buf : Nat → Byte) (ptr : Nat) : Nat × Nat :=
  (word32 e (buf ptr) (buf (ptr + 1)) (buf (ptr + 2)) (buf (ptr + 3)), ptr + 4)

/-- A byte buffer given by its initial bytes (zero beyond them). -/
def ofList (l : List Byte) : Nat → Byte := fun i => l.getD i 0

/-- The string literal `"FELF0001"`: F E L F 0 0 0 1 and the terminating NUL. -/
def magic : Nat → Byte :=
  ofList [0x46, 0x45, 0x4c, 0x46, 0x30, 0x30, 0x30, 0x31, 0x00]

/-- The library function `memcmp(a + i, b + i, n)`: zero when the `n` bytes
agree, otherwise the difference of the first pair of bytes that differ. -/
def memcmp (a b : Nat → Byte) : Nat → Nat → Int
  | _, 0 => 0
  | i, n + 1 =>
    if a i = b i then memcmp a b (i + 1) n else ((a i).val : Int) - ((b i).val : Int)

/-- The diagnostics of `main`, one per `fprintf(stderr, ...)`/`perror` site,
named after the error of the specification where it has one. -/
inductive Diag where
  /-- The message `WSAStartup() error`. -/
  | WSAStartup
  /-- The message `socket() error`. -/
  | Socket
  /-- The message `connect() error`. -/
  | Connect
  /-- The message `recv() error` of the length read (line 40). -/
  | RecvLength
  /-- The message `malloc() error`. -/
  | Malloc
  /-- The message `recv(pl) error` of the payload loop (line 56). -/
  | ShortRead
  /-- The message `Invalid FELF` (line 67). -/
  | TooShort
  /-- The message `Missing FELF header` (line 76). -/
  | BadMagic
  /-- The message `Unhandled 64-bit address` (lines 84 and 91). -/
  | UnsupportedAddressWidth
  /-- The message `VirtualAlloc() error` (line 107). -/
  | AllocationFailed
  deriving DecidableEq, Repr

/-- The locals `entry`, `base`, `end` and `ptr` after the header has been
accepted (line 95). -/
structure Header where
  entry : Nat
  base : Nat
  end_ : Nat
  ptr : Nat
  deriving DecidableEq, Repr

/-- Lines 65 to 95 of `main`: the checks on the received buffer `buf` of
declared length `len`, and the header values they leave in the locals. -/
def parseFelf (e : Endian) (len : Nat) (buf : Nat → Byte) : Except Diag Header :=
  if len < 3 * 8 then
    .error .TooShort
  else
    let ptr := 0
    if memcmp buf magic ptr 8 ≠ 0 then
      .error .BadMagic
    else
      let ptr := ptr + 8
      let (entry, ptr) := rdU32 e buf ptr
      let (hi, ptr) := rdU32 e buf ptr
      if hi ≠ 0 then
        .error .UnsupportedAddressWidth
      else
        let (base, ptr) := rdU32 e buf ptr
        let (hi, ptr) := rdU32 e buf ptr
        if hi ≠ 0 then
          .error .UnsupportedAddressWidth
        else
          let end_ := add32 base (sub32 len (3 * 8))
          .ok { entry := entry, base := base, end_ := end_, ptr := ptr }

/-- The local `align_base = base & ~0xffff` (line 99); `~0xffff` converted to
`unsigned int` is `0xffff0000`. -/
def align_base (base : Nat) : Nat := base &&& 0xffff0000

/-- The local `align_end = (end + 0xffff) & ~0xffff` (line 100). -/
def align_end (end_ : Nat) : Nat := add32 end_ 0xffff &&& 0xffff0000

/-- The size `align_end - align_base` passed to `VirtualAlloc` (line 102). -/
def regionSize (base end_ : Nat) : Nat := sub32 (align_end end_) (align_base base)

/-- The library function `memcpy(dst, src + off, n)` on a memory addressed by
natural numbers: the `n` bytes from `dst` on are replaced. -/
def memcpy (mem : Nat → Byte) (dst : Nat) (src : Nat → Byte) (off n : Nat) : Nat → Byte :=
  fun a => if dst ≤ a ∧ a < dst + n then src (off + (a - dst)) else mem a

/-- What the process does to the outside, in order. -/
inductive Event where
  /-- The call `VirtualAlloc(addr, size, MEM_COMMIT | MEM_RESERVE, PAGE_EXECUTE_READWRITE)`. -/
  | virtualAlloc (addr size : Nat)
  /-- The call `memcpy(dst, buf + off, n)` into process memory. -/
  | copy (dst off n : Nat)
  /-- The call `entry(sock)`. -/
  | call (entry sock : Nat)
  deriving DecidableEq, Repr

/-- One call `recv(sock, buf + off, req, 0)` of the payload loop and the value
`ret` it returned. -/
structure RecvCall where
  off : Nat
  req : Nat
  ret : Int
  deriving DecidableEq, Repr

/-- Everything `main` obtains from its environment. -/
structure Env where
  /-- Byte order of the host. -/
  order : Endian
  /-- Return value of `WSAStartup` (nonzero is failure). -/
  wsaStartup : Int
  /-- Whether `socket` returned `INVALID_SOCKET`. -/
  sockInvalid : Bool
  /-- The socket handle. -/
  sock : Nat
  /-- Whether `connect` returned `SOCKET_ERROR`. -/
  connectFails : Bool
  /-- Return values of the successive calls of `recv`; once the list is used
  up the peer has closed the connection and `recv` returns 0. -/
  recvs : List Int
  /-- The bytes the controller sends, in order. -/
  stream : Nat → Byte
  /-- Whether `malloc(len)` returns the null pointer. -/
  mallocNull : Nat → Bool
  /-- Contents of the block `malloc` returns (not initialised by `malloc`). -/
  heap : Nat → Byte
  /-- Return value of `VirtualAlloc(addr, size, ...)`, a pointer; 0 is the
  null pointer `VirtualAlloc` returns on failure. -/
  virtualAlloc : Nat → Nat → Nat
  /-- Process memory before the load, by absolute address. -/
  mem : Nat → Byte

/-- Outcome of a run of `main`. -/
structure Result where
  /-- Return value of `main`, the exit status of the process. -/
  exit : Int
  /-- The diagnostic written to `stderr`, if any. -/
  diag : Option Diag
  /-- The allocation, copy and dispatch performed, in order. -/
  trace : List Event
  /-- Process memory at the end (at the jump, when there is one). -/
  mem : Nat → Byte

/-- An error exit `return -1` after the diagnostic `d`. -/
def abort (env : Env) (d : Diag) (trace : List Event) : Result :=
  { exit := -1, diag := some d, trace := trace, mem := env.mem }

/-- State of the payload loop when it is left. -/
structure ReadResult where
  /-- Whether the loop was left through `return -1` (line 57). -/
  failed : Bool
  /-- The local `off`. -/
  off : Nat
  /-- Contents of `buf`. -/
  buf : Nat → Byte
  /-- The calls of `recv` made, oldest first. -/
  calls : List RecvCall

/-- A call of `recv` that returns `n > 0`: the next `n` bytes of the
stream, which start at position `pos`, are stored from `buf + off` on. -/
def recvInto (stream : Nat → Byte) (pos : Nat) (buf : Nat → Byte) (off n : Nat) :
    Nat → Byte :=
  fun i => if off ≤ i ∧ i < off + n then stream (pos + (i - off)) else buf i

/-- Lines 51 to 61 of `main`, the loop `while(off < len)`.  `recvs` are the
return values of the calls of `recv` still to come, `pos` the position in the
stream of the next byte to be delivered. -/
def readLoop (len : Nat) (stream : Nat → Byte) :
    List Int → Nat → Nat → (Nat → Byte) → List RecvCall → ReadResult
  | [], off, _, buf, calls =>
    if off < len then
      let remain := sub32 len off
      { failed := true, off := off, buf := buf, calls := calls ++ [⟨off, remain, 0⟩] }
    else
      { failed := false, off := off, buf := buf, calls := calls }
  | bread :: rest, off, pos, buf, calls =>
    if off < len then
      let remain := sub32 len off
      let calls := calls ++ [⟨off, remain, bread⟩]
      if bread ≤ 0 then
        { failed := true, off := off, buf := buf, calls := calls }
      else
        readLoop len stream rest (add32 off bread.toNat) (pos + bread.toNat)
          (recvInto stream pos buf off bread.toNat) calls
    else
      { failed := false, off := off, buf := buf, calls := calls }

/-- What lines 15 to 63 of `main` leave behind. -/
structure Received where
  /-- The diagnostic, when one of these lines returned -1. -/
  diag : Option Diag
  /-- The local `len`. -/
  len : Nat
  /-- Contents of `buf`. -/
  buf : Nat → Byte
  /-- The calls of `recv` of the payload loop. -/
  calls : List RecvCall

/-- The length the controller announces: the first four bytes of the stream
as an `unsigned int` of the host. -/
def declaredLen (env : Env) : Nat :=
  word32 env.order (env.stream 0) (env.stream 1) (env.stream 2) (env.stream 3)

/-- Lines 15 to 63 of `main`: start-up, connection, the read of the length,
`malloc` and the payload loop. -/
def receive (env : Env) : Received :=
  if env.wsaStartup ≠ 0 then
    { diag := some .WSAStartup, len := 0, buf := env.heap, calls := [] }
  else if env.sockInvalid then
    { diag := some .Socket, len := 0, buf := env.heap, calls := [] }
  else if env.connectFails then
    { diag := some .Connect, len := 0, buf := env.heap, calls := [] }
  else
    match env.recvs with
    | [] => { diag := some .RecvLength, len := 0, buf := env.heap, calls := [] }
    | r :: rest =>
      if r ≠ 4 then
        { diag := some .RecvLength, len := 0, buf := env.heap, calls := [] }
      else
        let len := declaredLen env
        if env.mallocNull len then
          { diag := some .Malloc, len := len, buf := env.heap, calls := [] }
        else
          let rd := readLoop len env.stream rest 0 4 env.heap []
          if rd.failed then
            { diag := some .ShortRead, len := len, buf := rd.buf, calls := rd.calls }
          else
            { diag := none, len := len, buf := rd.buf, calls := rd.calls }

/-- Lines 98 to 119 of `main`: the allocation at the aligned base, the copy of
the body and the jump to the entry point. -/
def load (env : Env) (h : Header) (buf : Nat → Byte) : Result :=
  let alignBase := align_base h.base
  let alignEnd := align_end h.end_
  let alloc := env.virtualAlloc alignBase (sub32 alignEnd alignBase)
  let request := Event.virtualAlloc alignBase (sub32 alignEnd alignBase)
  if alloc ≠ alignBase then
    abort env .AllocationFailed [request]
  else
    let n := sub32 h.end_ h.base
    { exit := 0
      diag := none
      trace := [request, .copy h.base h.ptr n, .call h.entry env.sock]
      mem := memcpy env.mem h.base buf h.ptr n }

/-- The function `main` of `client.c`. -/
def main (env : Env) : Result :=
  let rx := receive env
  match rx.diag with
  | some d => abort env d []
  | none =>
    match parseFelf env.order rx.len rx.buf with
    | .error d => abort env d []
    | .ok h => load env h rx.buf

/-! ## Scenario A of the specification -/

/-- The 28 bytes of Scenario A: magic, entry (0x00400000, 0), base
(0x00400000, 0) as little-endian words, and the code 90 90 90 C3. -/
def scenarioPayload : List Byte :=
  [0x46, 0x45, 0x4c, 0x46, 0x30, 0x30, 0x30, 0x31,
   0x00, 0x00, 0x40, 0x00, 0x00, 0x00, 0x00, 0x00,
   0x00, 0x00, 0x40, 0x00, 0x00, 0x00, 0x00, 0x00,
   0x90, 0x90, 0x90, 0xc3]

/-- An environment in which everything succeeds: the stream is the length
word `len` (little-endian, below 256) followed by `payload`, `recv` returns
`recvs`, and `VirtualAlloc` returns what `valloc` says. -/
def envOf (len : Byte) (payload : List Byte) (recvs : List Int)
    (valloc : Nat → Nat → Nat) : Env :=
  { order := .little
    wsaStartup := 0
    sockInvalid := false
    sock := 7
    connectFails := false
    recvs := recvs
    stream := ofList ([len, 0, 0, 0] ++ payload)
    mallocNull := fun _ => false
    heap := fun _ => 0
    virtualAlloc := valloc
    mem := fun _ => 0 }

/-- Scenario A: the 28 bytes arrive in one delivery and the allocator grants
the requested address. -/
def scenarioA : Env := envOf 28 scenarioPayload [4, 28] (fun addr _ => addr)

/-- Scenario B: the same bytes in deliveries of 1, 2 and 25. -/
def scenarioB : Env := envOf 28 scenarioPayload [4, 1, 2, 25] (fun addr _ => addr)

/-- Scenario C: the connection closes after 10 of the 28 bytes. -/
def scenarioC : Env := envOf 28 scenarioPayload [4, 10, 0] (fun addr _ => addr)

/-- Scenario D: the range is occupied and `VirtualAlloc` fails. -/
def scenarioD : Env := envOf 28 scenarioPayload [4, 28] (fun _ _ => 0)

/-! ## Further concrete inputs -/

/-- A 25-byte payload: magic, entry (0x00400000, 0), base (0xffffffff, 0) and
one body byte. -/
def wrapPayload : List Byte :=
  [0x46, 0x45, 0x4c, 0x46, 0x30, 0x30, 0x30, 0x31,
   0x00, 0x00, 0x40, 0x00, 0x00, 0x00, 0x00, 0x00,
   0xff, 0xff, 0xff, 0xff, 0x00, 0x00, 0x00, 0x00,
   0x90]

/-- The payload of Scenario A with the high word of the entry set to 1. -/
def wideEntryPayload : List Byte :=
  [0x46, 0x45, 0x4c, 0x46, 0x30, 0x30, 0x30, 0x31,
   0x00, 0x00, 0x40, 0x00, 0x01, 0x00, 0x00, 0x00,
   0x00, 0x00, 0x40, 0x00, 0x00, 0x00, 0x00, 0x00,
   0x90, 0x90, 0x90, 0xc3]

/-- The payload of Scenario A with the first byte of the magic replaced by X. -/
def badMagicPayload : List Byte :=
  [0x58, 0x45, 0x4c, 0x46, 0x30, 0x30, 0x30, 0x31,
   0x00, 0x00, 0x40, 0x00, 0x00, 0x00, 0x00, 0x00,
   0x00, 0x00, 0x40, 0x00, 0x00, 0x00, 0x00, 0x00,
   0x90, 0x90, 0x90, 0xc3]

/-- An 8-byte payload XELF0001: too short, and with a wrong magic. -/
def shortBadMagic : List Byte :=
  [0x58, 0x45, 0x4c, 0x46, 0x30, 0x30, 0x30, 0x31]

/-- A 24-byte payload, header only: magic, entry (0x00400000, 0), base
(0xffff0001, 0). -/
def highBasePayload : List Byte :=
  [0x46, 0x45, 0x4c, 0x46, 0x30, 0x30, 0x30, 0x31,
   0x00, 0x00, 0x40, 0x00, 0x00, 0x00, 0x00, 0x00,
   0x01, 0x00, 0xff, 0xff, 0x00, 0x00, 0x00, 0x00]

/-- A header alone: magic, entry (0x00400000, 0), base (0, 0). -/
def zeroBaseHeader : List Byte :=
  [0x46, 0x45, 0x4c, 0x46, 0x30, 0x30, 0x30, 0x31,
   0x00, 0x00, 0x40, 0x00, 0x00, 0x00, 0x00, 0x00,
   0x00, 0x00, 0x00, 0x00, 0x00, 0x00, 0x00, 0x00]

/-- The payload of Scenario A with entry and base 0x00001000, below the first
64 KiB boundary. -/
def lowBasePayload : List Byte :=
  [0x46, 0x45, 0x4c, 0x46, 0x30, 0x30, 0x30, 0x31,
   0x00, 0x10, 0x00, 0x00, 0x00, 0x00, 0x00, 0x00,
   0x00, 0x10, 0x00, 0x00, 0x00, 0x00, 0x00, 0x00,
   0x90, 0x90, 0x90, 0xc3]

/-- A worker that receives `payload` (shorter than 256 bytes) in one delivery
and is granted the address it asks for. -/
def envPayload (payload : List Byte) : Env :=
  envOf (Fin.ofNat payload.length) payload [4, payload.length] (fun addr _ => addr)

/-- The payload with base 0x00001000 is received in full and `VirtualAlloc`
fails, returning the null pointer. -/
def nullGrantLow : Env := envOf 28 lowBasePayload [4, 28] (fun _ _ => 0)

/-- A header with base 0 and no body is received; the size requested is 0 and
`VirtualAlloc` fails, returning the null pointer. -/
def nullGrantEmpty : Env := envOf 24 zeroBaseHeader [4, 24] (fun _ _ => 0)

/-- Scenario A, except that the four bytes of the length arrive as one byte
followed by three. -/
def splitLength : Env := envOf 28 scenarioPayload [1, 3, 28] (fun addr _ => addr)

/-- The assumption on the peer in the payload loop: started at offset `off`,
each of the calls of `recv` listed returns a count between 1 and the remainder
`len - off` requested by that call.  The value is the offset reached. -/
def deliver (len : Nat) : Nat → List Int → Option Nat
  | off, [] => some off
  | off, c :: rest =>
    if 1 ≤ c ∧ c ≤ ((sub32 len off : Nat) : Int) then deliver len (off + c.toNat) rest
    else none

/-! ## Arithmetic of the 32-bit operations -/

theorem land_mask (x : Nat) (hx : x < 4294967296) :
    x &&& 0xffff0000 = x / 65536 * 65536 := by
  apply Nat.eq_of_testBit_eq
  intro i
  have hm : (0xffff0000 : Nat) = 2 ^ 16 * (2 ^ 16 - 1) := by norm_num
  have hr : x / 65536 * 65536 = 2 ^ 16 * (x >>> 16) := by
    rw [Nat.shiftRight_eq_div_pow]; norm_num [Nat.mul_comm]
  rw [Nat.testBit_and, hm, hr, Nat.testBit_mul_pow_two, Nat.testBit_mul_pow_two,
    Nat.testBit_two_pow_sub_one, Nat.testBit_shiftRight]
  by_cases h16 : 16 ≤ i
  · have e : 16 + (i - 16) = i := by omega
    by_cases h32 : i < 32
    · have h : i - 16 < 16 := by omega
      simp [h16, h, e]
    · have hp : (2 : Nat) ^ 32 ≤ 2 ^ i :=
        Nat.pow_le_pow_right (by norm_num) (by omega)
      have hb : x.testBit i = false :=
        Nat.testBit_lt_two_pow (lt_of_lt_of_le (by norm_num; exact hx) hp)
      simp [hb, e]
  · simp [h16]

theorem word32_lt (e : Endian) (b0 b1 b2 b3 : Byte) :
    word32 e b0 b1 b2 b3 < 4294967296 := by
  have h0 := b0.isLt
  have h1 := b1.isLt
  have h2 := b2.isLt
  have h3 := b3.isLt
  cases e <;> simp only [word32] <;> omega

theorem rdU32_lt (e : Endian) (buf : Nat → Byte) (p : Nat) :
    (rdU32 e buf p).1 < 4294967296 := word32_lt _ _ _ _ _

theorem align_base_eq (base : Nat) (hb : base < 4294967296) :
    align_base base = base / 65536 * 65536 := land_mask base hb

theorem align_end_eq (end_ : Nat) :
    align_end end_ = (end_ + 65535) % 4294967296 / 65536 * 65536 := by
  unfold align_end add32
  exact land_mask _ (Nat.mod_lt _ (by norm_num))

theorem memcmp_eq_zero (a b : Nat → Byte) (n i : Nat) :
    memcmp a b i n = 0 ↔ ∀ j, j < n → a (i + j) = b (i + j) := by
  induction n generalizing i with
  | zero => simp [memcmp]
  | succ n ih =>
    unfold memcmp
    by_cases h : a i = b i
    · rw [if_pos h, ih]
      constructor
      · intro hj j hlt
        cases j with
        | zero => simpa using h
        | succ j =>
          have := hj j (by omega)
          rwa [show i + (j + 1) = i + 1 + j by omega]
      · intro hj j hlt
        have := hj (j + 1) (by omega)
        rwa [show i + (j + 1) = i + 1 + j by omega] at this
    · rw [if_neg h]
      constructor
      · intro hz
        exfalso
        apply h
        apply Fin.ext
        omega
      · intro hj
        exact absurd (by simpa using hj 0 (by omega)) h

/-! ## The header checks -/

theorem magic_ascii :
    (List.range 8).map magic = "FELF0001".toList.map (fun c => Fin.ofNat c.toNat) := by
  decide

theorem parseFelf_eq (e : Endian) (len : Nat) (buf : Nat → Byte) :
    parseFelf e len buf =
      if len < 24 then .error .TooShort
      else if memcmp buf magic 0 8 ≠ 0 then .error .BadMagic
      else if (rdU32 e buf 12).1 ≠ 0 then .error .UnsupportedAddressWidth
      else if (rdU32 e buf 20).1 ≠ 0 then .error .UnsupportedAddressWidth
      else .ok { entry := (rdU32 e buf 8).1, base := (rdU32 e buf 16).1,
                 end_ := add32 (rdU32 e buf 16).1 (sub32 len 24), ptr := 24 } := by
  rfl

theorem magic_iff (buf : Nat → Byte) :
    memcmp buf magic 0 8 = 0 ↔ ∀ i, i < 8 → buf i = magic i := by
  rw [memcmp_eq_zero]
  simp

theorem parseFelf_ok_inv (e : Endian) (len : Nat) (buf : Nat → Byte) (h : Header)
    (hp : parseFelf e len buf = .ok h) :
    24 ≤ len ∧ (∀ i, i < 8 → buf i = magic i) ∧ (rdU32 e buf 12).1 = 0 ∧
      (rdU32 e buf 20).1 = 0 ∧ h.entry = (rdU32 e buf 8).1 ∧
      h.base = (rdU32 e buf 16).1 ∧ h.end_ = add32 h.base (sub32 len 24) ∧ h.ptr = 24 := by
  rw [parseFelf_eq] at hp
  split_ifs at hp with h1 h2 h3 h4
  have hh : h = _ := (Except.ok.inj hp).symm
  subst hh
  refine ⟨by omega, (magic_iff buf).1 (not_not.1 h2), not_not.1 h3, not_not.1 h4,
    rfl, rfl, rfl, rfl⟩

theorem sub32_of_le (a b : Nat) (hb : b ≤ a) (ha : a < 4294967296) : sub32 a b = a - b := by
  unfold sub32
  omega

theorem sub32_add32 (a n : Nat) (hn : n < 4294967296) :
    sub32 (add32 a n) a = n := by
  unfold sub32 add32
  omega

/-! ## From the checks to the outcome of `main` -/

theorem receive_len (env : Env) (hrx : (receive env).diag = none) :
    (receive env).len = declaredLen env := by
  revert hrx
  unfold receive
  dsimp only
  split_ifs <;> try simp
  all_goals
    cases env.recvs with
    | nil => simp
    | cons r rest =>
      dsimp only
      split_ifs <;> simp

theorem main_receive_error (env : Env) (d : Diag) (hrx : (receive env).diag = some d) :
    main env = abort env d [] := by
  simp [main, hrx]

theorem main_parse_error (env : Env) (d : Diag) (hrx : (receive env).diag = none)
    (hp : parseFelf env.order (receive env).len (receive env).buf = .error d) :
    main env = abort env d [] := by
  simp [main, hrx, hp]

theorem main_parse_ok (env : Env) (h : Header) (hrx : (receive env).diag = none)
    (hp : parseFelf env.order (receive env).len (receive env).buf = .ok h) :
    main env = load env h (receive env).buf := by
  simp [main, hrx, hp]

theorem abort_fields (env : Env) (d : Diag) (r : Result) (hr : r = abort env d []) :
    r.exit = -1 ∧ r.exit ≠ 0 ∧ r.diag = some d ∧ r.trace = [] ∧ r.mem = env.mem := by
  subst hr
  simp [abort]

/-! ## Claims about the header checks -/

/-- C1, as stated, fails where the sum leaves 32 bits: for the 25-byte payload
with base 0xffffffff the header is accepted with body length 1, and the
local `end` is 0, not `base + bodyLength` = 0x100000000. -/
theorem C1_end_wraps :
    ∃ h, parseFelf .little 25 (ofList wrapPayload) = .ok h ∧
      h.base = 0xffffffff ∧ sub32 h.end_ h.base = 1 ∧ h.end_ = 0 ∧
      h.end_ ≠ h.base + (25 - 24) :=
  ⟨⟨0x400000, 0xffffffff, 0, 24⟩, rfl, rfl, by decide, rfl, by decide⟩

/-- C1 (amended): every buffer of declared length `24 ≤ len < 2^32` whose first
8 bytes are `FELF0001` and whose words at offsets 12 and 20 are zero is
accepted, whatever its other bytes are, with entry the word at offset 8, base
the word at offset 16, the body at offset 24 with length `len - 24`, and `end`
the unsigned 32-bit sum `(base + (len - 24)) mod 2^32`, which is
`base + (len - 24)` exactly when that sum is below `2^32`. -/
theorem C1_parse_success (e : Endian) (len : Nat) (buf : Nat → Byte)
    (hlen : 24 ≤ len) (h32 : len < 4294967296)
    (hmagic : ∀ i, i < 8 → buf i = magic i)
    (hentry : (rdU32 e buf 12).1 = 0) (hbase : (rdU32 e buf 20).1 = 0) :
    ∃ h, parseFelf e len buf = .ok h ∧
      h.entry = (rdU32 e buf 8).1 ∧ h.base = (rdU32 e buf 16).1 ∧
      h.ptr = 24 ∧ sub32 h.end_ h.base = len - 24 ∧
      h.end_ = (h.base + (len - 24)) % 4294967296 ∧
      (h.end_ = h.base + (len - 24) ↔ h.base + (len - 24) < 4294967296) := by
  refine ⟨⟨(rdU32 e buf 8).1, (rdU32 e buf 16).1,
    add32 (rdU32 e buf 16).1 (sub32 len 24), 24⟩, ?_, rfl, rfl, rfl, ?_, ?_, ?_⟩
  · rw [parseFelf_eq, if_neg (by omega), if_neg (not_not.2 ((magic_iff buf).2 hmagic)),
      if_neg (not_not.2 hentry), if_neg (not_not.2 hbase)]
  · show sub32 (add32 _ (sub32 len 24)) _ = len - 24
    rw [sub32_of_le len 24 hlen h32]
    exact sub32_add32 _ _ (by omega)
  · show add32 _ (sub32 len 24) = _
    rw [sub32_of_le len 24 hlen h32]
    rfl
  · show add32 _ (sub32 len 24) = _ ↔ _
    rw [sub32_of_le len 24 hlen h32]
    unfold add32
    constructor
    · intro h
      rw [← h]
      exact Nat.mod_lt _ (by norm_num)
    · intro h
      exact Nat.mod_eq_of_lt h

/-- C1 at the payload of Scenario A: entry and base 0x00400000, body of 4
bytes at offset 24, end 0x00400004. -/
theorem C1_parse_success_witness :
    ∃ h, parseFelf .little 28 (ofList scenarioPayload) = .ok h ∧
      h.entry = (rdU32 .little (ofList scenarioPayload) 8).1 ∧
      h.base = (rdU32 .little (ofList scenarioPayload) 16).1 ∧
      h.ptr = 24 ∧ sub32 h.end_ h.base = 28 - 24 ∧
      h.end_ = (h.base + (28 - 24)) % 4294967296 ∧
      (h.end_ = h.base + (28 - 24) ↔ h.base + (28 - 24) < 4294967296) :=
  C1_parse_success .little 28 (ofList scenarioPayload) (by decide) (by decide)
    (by decide) (by decide) (by decide)

/-- C3: a buffer of at least 24 bytes that carries the magic and has a nonzero
high word (offset 12 or offset 20) is rejected with `UnsupportedAddressWidth`;
a worker that received it exits with -1, and performs no allocation, no copy
and no dispatch, and leaves memory as it was. -/
theorem C3_high_word_rejected (e : Endian) (len : Nat) (buf : Nat → Byte)
    (hlen : 24 ≤ len) (hmagic : ∀ i, i < 8 → buf i = magic i)
    (hhi : (rdU32 e buf 12).1 ≠ 0 ∨ (rdU32 e buf 20).1 ≠ 0) :
    parseFelf e len buf = .error .UnsupportedAddressWidth ∧
      ∀ env : Env, env.order = e → (receive env).diag = none →
        (receive env).len = len → (receive env).buf = buf →
        (main env).exit = -1 ∧ (main env).exit ≠ 0 ∧
          (main env).diag = some .UnsupportedAddressWidth ∧
          (main env).trace = [] ∧ (main env).mem = env.mem := by
  have hp : parseFelf e len buf = .error .UnsupportedAddressWidth := by
    rw [parseFelf_eq, if_neg (by omega), if_neg (not_not.2 ((magic_iff buf).2 hmagic))]
    by_cases h12 : (rdU32 e buf 12).1 ≠ 0
    · rw [if_pos h12]
    · rw [if_neg h12, if_pos (hhi.resolve_left h12)]
  refine ⟨hp, ?_⟩
  intro env he hrx hl hb
  subst he hl hb
  exact abort_fields env _ _ (main_parse_error env _ hrx hp)

/-- C3 at the payload of Scenario A with entry high word 1, received by a
worker in one delivery. -/
theorem C3_high_word_rejected_witness :
    (rdU32 .little (receive (envPayload wideEntryPayload)).buf 12).1 = 1 ∧
      parseFelf .little 28 (receive (envPayload wideEntryPayload)).buf =
        .error .UnsupportedAddressWidth ∧
      (main (envPayload wideEntryPayload)).exit = -1 ∧
      (main (envPayload wideEntryPayload)).exit ≠ 0 ∧
      (main (envPayload wideEntryPayload)).diag = some .UnsupportedAddressWidth ∧
      (main (envPayload wideEntryPayload)).trace = [] ∧
      (main (envPayload wideEntryPayload)).mem = (envPayload wideEntryPayload).mem :=
  have h := C3_high_word_rejected .little 28 (receive (envPayload wideEntryPayload)).buf
    (by decide) (by decide) (Or.inl (by decide))
  ⟨by decide, h.1, h.2 (envPayload wideEntryPayload) rfl (by decide) (by decide) rfl⟩

/-- C4: for every declared length below 24 (0 included) the checks answer
`TooShort` whatever the buffer holds, so the answer does not depend on any
byte of it; and a worker whose controller announces such a length exits with
-1 without allocation, copy or dispatch, with `TooShort` when the payload was
received in full. -/
theorem C4_too_short (e : Endian) (len : Nat) (buf : Nat → Byte) (hlen : len < 24) :
    parseFelf e len buf = .error .TooShort ∧
      ∀ env : Env, declaredLen env = len →
        (main env).exit = -1 ∧ (main env).exit ≠ 0 ∧ (main env).trace = [] ∧
          (main env).mem = env.mem ∧
          ((receive env).diag = none → (main env).diag = some .TooShort) := by
  have hp : ∀ e buf, parseFelf e len buf = .error .TooShort := by
    intro e buf
    rw [parseFelf_eq, if_pos hlen]
  refine ⟨hp e buf, ?_⟩
  intro env hd
  cases hrx : (receive env).diag with
  | some d =>
    have h := abort_fields env d _ (main_receive_error env d hrx)
    exact ⟨h.1, h.2.1, h.2.2.2.1, h.2.2.2.2, fun hn => by simp at hn⟩
  | none =>
    have hl : (receive env).len = len := (receive_len env hrx).trans hd
    have h := abort_fields env .TooShort _
      (main_parse_error env _ hrx (by rw [hl]; exact hp _ _))
    exact ⟨h.1, h.2.1, h.2.2.2.1, h.2.2.2.2, fun _ => h.2.2.1⟩

/-- C4 at the 8-byte payload and at a length of 0. -/
theorem C4_too_short_witness :
    parseFelf .little 8 (ofList shortBadMagic) = .error .TooShort ∧
      parseFelf .big 0 (ofList scenarioPayload) = .error .TooShort ∧
      (main (envPayload shortBadMagic)).diag = some .TooShort ∧
      (main (envPayload shortBadMagic)).exit = -1 :=
  have h := C4_too_short .little 8 (ofList shortBadMagic) (by decide)
  ⟨h.1, (C4_too_short .big 0 (ofList scenarioPayload) (by decide)).1,
    (h.2 (envPayload shortBadMagic) (by decide)).2.2.2.2 (by decide),
    (h.2 (envPayload shortBadMagic) (by decide)).1⟩

/-- C5, as stated, fails below 24 bytes: the 8-byte payload XELF0001 has a
wrong magic and is rejected with `TooShort`, not `BadMagic`. -/
theorem C5_short_is_not_bad_magic :
    (∃ i, i < 8 ∧ ofList shortBadMagic i ≠ magic i) ∧
      parseFelf .little 8 (ofList shortBadMagic) = .error .TooShort ∧
      parseFelf .little 8 (ofList shortBadMagic) ≠ .error .BadMagic ∧
      (main (envPayload shortBadMagic)).diag = some .TooShort :=
  ⟨⟨0, by decide, by decide⟩, rfl,
    fun h => by
      have h2 : (Except.error Diag.TooShort : Except Diag Header) = .error .BadMagic := h
      simp at h2,
    by decide⟩

/-- C5 (amended): for every declared length of at least 24, a buffer whose first
8 bytes differ from `FELF0001` is rejected with `BadMagic`, whatever the
remaining bytes are; a worker that received it exits with -1 and performs no
allocation, copy or dispatch. -/
theorem C5_bad_magic (e : Endian) (len : Nat) (buf : Nat → Byte)
    (hlen : 24 ≤ len) (hmagic : ∃ i, i < 8 ∧ buf i ≠ magic i) :
    parseFelf e len buf = .error .BadMagic ∧
      ∀ env : Env, env.order = e → (receive env).diag = none →
        (receive env).len = len → (receive env).buf = buf →
        (main env).exit = -1 ∧ (main env).exit ≠ 0 ∧
          (main env).diag = some .BadMagic ∧
          (main env).trace = [] ∧ (main env).mem = env.mem := by
  have hp : parseFelf e len buf = .error .BadMagic := by
    rw [parseFelf_eq, if_neg (by omega), if_pos]
    intro h0
    obtain ⟨i, hi, hne⟩ := hmagic
    exact hne ((magic_iff buf).1 h0 i hi)
  refine ⟨hp, ?_⟩
  intro env he hrx hl hb
  subst he hl hb
  exact abort_fields env _ _ (main_parse_error env _ hrx hp)

/-- C5 (amended) at the 28-byte payload that starts with XELF0001, received
by a worker in one delivery. -/
theorem C5_bad_magic_witness :
    (∃ i, i < 8 ∧ (receive (envPayload badMagicPayload)).buf i ≠ magic i) ∧
      parseFelf .little 28 (receive (envPayload badMagicPayload)).buf = .error .BadMagic ∧
      (main (envPayload badMagicPayload)).exit = -1 ∧
      (main (envPayload badMagicPayload)).exit ≠ 0 ∧
      (main (envPayload badMagicPayload)).diag = some .BadMagic ∧
      (main (envPayload badMagicPayload)).trace = [] ∧
      (main (envPayload badMagicPayload)).mem = (envPayload badMagicPayload).mem :=
  have h := C5_bad_magic .little 28 (receive (envPayload badMagicPayload)).buf (by decide)
    ⟨0, by decide, by decide⟩
  ⟨⟨0, by decide, by decide⟩, h.1,
    h.2 (envPayload badMagicPayload) rfl (by decide) (by decide) rfl⟩

/-! ## Claims about the aligned region -/

/-- C6, as stated, fails where `end + 0xffff` leaves 32 bits: for the 24-byte
payload with base 0xffff0001 the local `end` is 0xffff0001 and `align_end` is
0, so `end ≤ align_end` is false. -/
theorem C6_align_end_wraps :
    ∃ h, parseFelf .little 24 (ofList highBasePayload) = .ok h ∧
      h.base = 0xffff0001 ∧ h.end_ = 0xffff0001 ∧ align_end h.end_ = 0 ∧
      ¬ (h.end_ ≤ align_end h.end_) :=
  ⟨⟨0x400000, 0xffff0001, 0xffff0001, 24⟩, rfl, rfl, rfl, by decide, by decide⟩

/-- C6 (amended): for the base and end of every accepted header,
`align_base ≤ base < align_base + 65536`, both `align_base` and `align_end` are
multiples of 65536, and `align_end - 65536 < end ≤ align_end` (over the
integers) holds whenever `end ≤ 0xffff0000`; for a larger `end` the sum
`end + 0xffff` wraps and `align_end` is 0. -/
theorem C6_alignment (e : Endian) (len : Nat) (buf : Nat → Byte) (h : Header)
    (hp : parseFelf e len buf = .ok h) :
    align_base h.base ≤ h.base ∧ h.base < align_base h.base + 65536 ∧
      65536 ∣ align_base h.base ∧ 65536 ∣ align_end h.end_ ∧
      (h.end_ ≤ 0xffff0000 →
        (align_end h.end_ : Int) - 65536 < (h.end_ : Int) ∧ h.end_ ≤ align_end h.end_) ∧
      (0xffff0000 < h.end_ → align_end h.end_ = 0) := by
  obtain ⟨_, _, _, _, _, hb, he, _⟩ := parseFelf_ok_inv e len buf h hp
  have hb32 : h.base < 4294967296 := hb ▸ rdU32_lt e buf 16
  have he32 : h.end_ < 4294967296 := by
    rw [he]
    exact Nat.mod_lt _ (by norm_num)
  rw [align_base_eq _ hb32, align_end_eq]
  refine ⟨?_, ?_, ?_, ?_, ?_, ?_⟩
  · omega
  · omega
  · exact Nat.dvd_mul_left _ _
  · exact Nat.dvd_mul_left _ _
  · intro hle
    constructor
    · have := Nat.div_add_mod ((h.end_ + 65535) % 4294967296) 65536
      omega
    · omega
  · intro hlt
    omega

/-- C6 (amended) at Scenario A: base 0x00400000 and end 0x00400004 give the
region from 0x00400000 to 0x00410000. -/
theorem C6_alignment_witness :
    align_base 0x400000 = 0x400000 ∧ align_end 0x400004 = 0x410000 ∧
      (align_base 0x400000 ≤ 0x400000 ∧ 0x400000 < align_base 0x400000 + 65536 ∧
        65536 ∣ align_base 0x400000 ∧ 65536 ∣ align_end 0x400004 ∧
        (0x400004 ≤ 0xffff0000 →
          (align_end 0x400004 : Int) - 65536 < ((0x400004 : Nat) : Int) ∧
            0x400004 ≤ align_end 0x400004) ∧
        (0xffff0000 < 0x400004 → align_end 0x400004 = 0)) :=
  ⟨by decide, by decide,
    C6_alignment .little 28 (ofList scenarioPayload) ⟨0x400000, 0x400000, 0x400004, 24⟩ rfl⟩

/-- The arithmetic of lines 95 to 102 alone does not bound the length: for a
body of 0xffff0001 bytes at base 0 (declared length 0xffff0019) `end` is
0xffff0001, `align_end` wraps to 0 and the size is 0.  No buffer of that
length exists in a 32-bit process, see `region_covers_iff`. -/
theorem region_size_wraps :
    ∃ h, parseFelf .little 0xffff0019 (ofList zeroBaseHeader) = .ok h ∧
      h.base = 0 ∧ sub32 h.end_ h.base = 0xffff0019 - 24 ∧
      regionSize h.base h.end_ = 0 :=
  ⟨⟨0x400000, 0, 0xffff0001, 24⟩, rfl, rfl, by decide, by decide⟩

theorem receive_len_lt (env : Env) (hrx : (receive env).diag = none) :
    (receive env).len < 4294967296 := by
  rw [receive_len env hrx]
  exact word32_lt _ _ _ _ _

theorem copy_length (e : Endian) (len : Nat) (buf : Nat → Byte) (h : Header)
    (h32 : len < 4294967296) (hp : parseFelf e len buf = .ok h) :
    sub32 h.end_ h.base = len - 24 := by
  obtain ⟨hlen, _, _, _, _, _, he, _⟩ := parseFelf_ok_inv e len buf h hp
  rw [he, sub32_of_le len 24 hlen h32]
  exact sub32_add32 _ _ (by omega)

theorem load_refused (env : Env) (h : Header) (buf : Nat → Byte)
    (hne : env.virtualAlloc (align_base h.base) (regionSize h.base h.end_) ≠ align_base h.base) :
    load env h buf = abort env .AllocationFailed
      [.virtualAlloc (align_base h.base) (regionSize h.base h.end_)] := by
  unfold regionSize at hne ⊢
  unfold load
  dsimp only
  rw [if_pos hne]

theorem load_granted (env : Env) (h : Header) (buf : Nat → Byte)
    (hg : env.virtualAlloc (align_base h.base) (regionSize h.base h.end_) = align_base h.base) :
    load env h buf =
      { exit := 0
        diag := none
        trace := [.virtualAlloc (align_base h.base) (regionSize h.base h.end_),
          .copy h.base h.ptr (sub32 h.end_ h.base), .call h.entry env.sock]
        mem := memcpy env.mem h.base buf h.ptr (sub32 h.end_ h.base) } := by
  unfold regionSize at hg ⊢
  unfold load
  dsimp only
  rw [if_neg (show ¬ (env.virtualAlloc _ _ ≠ align_base h.base) from fun hn => hn hg)]

/-- The part of C7 the code satisfies: whenever the pointer `VirtualAlloc`
returns differs from `align_base`, the worker exits with -1 after the request
alone, and memory is as before. -/
theorem main_alloc_refused (env : Env) (h : Header)
    (hrx : (receive env).diag = none)
    (hp : parseFelf env.order (receive env).len (receive env).buf = .ok h)
    (hne : env.virtualAlloc (align_base h.base) (regionSize h.base h.end_) ≠ align_base h.base) :
    (main env).exit = -1 ∧ (main env).diag = some .AllocationFailed ∧
      (main env).trace = [.virtualAlloc (align_base h.base) (regionSize h.base h.end_)] ∧
      (main env).mem = env.mem := by
  rw [main_parse_ok env h hrx hp, load_refused env h _ hne]
  simp [abort]

/-- C2: after a payload has been received and accepted and `VirtualAlloc` has
returned exactly `align_base`, `main` copies from buffer offset 24, to address
`base`, `len - 24` bytes, and then jumps: the bytes of memory at
`base, ..., base + (len - 24) - 1` are the bytes `24, ..., len - 1` of the
payload, and memory outside that range is as before. -/
theorem C2_load_round_trip (env : Env) (h : Header)
    (hrx : (receive env).diag = none)
    (hp : parseFelf env.order (receive env).len (receive env).buf = .ok h)
    (hgrant : env.virtualAlloc (align_base h.base) (regionSize h.base h.end_) =
      align_base h.base) :
    (main env).exit = 0 ∧ (main env).diag = none ∧
      (main env).trace =
        [.virtualAlloc (align_base h.base) (regionSize h.base h.end_),
          .copy h.base 24 ((receive env).len - 24), .call h.entry env.sock] ∧
      (∀ i, i < (receive env).len - 24 →
        (main env).mem (h.base + i) = (receive env).buf (24 + i)) ∧
      (∀ a, a < h.base ∨ h.base + ((receive env).len - 24) ≤ a →
        (main env).mem a = env.mem a) := by
  have hn := copy_length _ _ _ h (receive_len_lt env hrx) hp
  have hptr : h.ptr = 24 := (parseFelf_ok_inv _ _ _ h hp).2.2.2.2.2.2.2
  rw [main_parse_ok env h hrx hp, load_granted env h _ hgrant, hn, hptr]
  refine ⟨rfl, rfl, rfl, ?_, ?_⟩
  · intro i hi
    show memcpy _ _ _ _ _ _ = _
    unfold memcpy
    rw [if_pos ⟨by omega, by omega⟩]
    congr 1
    omega
  · intro a ha
    show memcpy _ _ _ _ _ _ = _
    unfold memcpy
    rw [if_neg (by omega)]

/-- C2 at Scenario A: the four code bytes 90 90 90 C3 are at 0x00400000 to
0x00400003 after the load. -/
theorem C2_load_round_trip_witness :
    (main scenarioA).exit = 0 ∧
      (main scenarioA).trace =
        [.virtualAlloc 0x400000 0x10000, .copy 0x400000 24 4, .call 0x400000 7] ∧
      (main scenarioA).mem 0x400000 = 0x90 ∧ (main scenarioA).mem 0x400001 = 0x90 ∧
      (main scenarioA).mem 0x400002 = 0x90 ∧ (main scenarioA).mem 0x400003 = 0xc3 ∧
      ∀ i, i < (receive scenarioA).len - 24 →
        (main scenarioA).mem (0x400000 + i) = (receive scenarioA).buf (24 + i) :=
  have h := C2_load_round_trip scenarioA ⟨0x400000, 0x400000, 0x400004, 24⟩
    (by decide) rfl (by decide)
  ⟨h.1, by decide, by decide, by decide, by decide, by decide, h.2.2.2.1⟩

/-- C7 fails on the code when `align_base` is 0: the null pointer that
`VirtualAlloc` returns on failure equals `align_base`, so the test of line
106 passes.  With base 0x00001000 and a failed allocation the four body bytes
are copied to 0x00001000 and the entry is called, with exit status 0; with
base 0 and an empty body the size requested is 0, the allocation fails, and
the entry is called all the same.  In Scenario D, where `align_base` is
0x00400000, the same failure is detected. -/
theorem C7_null_taken_as_grant :
    align_base 0x1000 = 0 ∧ nullGrantLow.virtualAlloc 0 0x10000 = 0 ∧
      (main nullGrantLow).exit = 0 ∧ (main nullGrantLow).diag = none ∧
      (main nullGrantLow).trace =
        [.virtualAlloc 0 0x10000, .copy 0x1000 24 4, .call 0x1000 7] ∧
      nullGrantLow.mem 0x1000 = 0 ∧ (main nullGrantLow).mem 0x1000 = 0x90 ∧
      (main nullGrantEmpty).exit = 0 ∧
      (main nullGrantEmpty).trace =
        [.virtualAlloc 0 0, .copy 0 24 0, .call 0x400000 7] ∧
      (main scenarioD).exit = -1 ∧ (main scenarioD).diag = some .AllocationFailed ∧
      (main scenarioD).trace = [.virtualAlloc 0x400000 0x10000] := by
  decide

/-! ## The payload loop -/

theorem readLoop_done (len : Nat) (stream : Nat → Byte) (rest : List Int) (off pos : Nat)
    (buf : Nat → Byte) (calls : List RecvCall) (hoff : ¬ off < len) :
    readLoop len stream rest off pos buf calls =
      { failed := false, off := off, buf := buf, calls := calls } := by
  cases rest <;> simp [readLoop, hoff]

theorem readLoop_closed (len : Nat) (stream : Nat → Byte) (rest : List Int) (off pos : Nat)
    (buf : Nat → Byte) (calls : List RecvCall) (hoff : off < len)
    (hrest : rest = [] ∨ ∃ c tl, rest = c :: tl ∧ c ≤ 0) :
    (readLoop len stream rest off pos buf calls).failed = true := by
  rcases hrest with h | ⟨c, tl, h, hc⟩
  · subst h
    simp [readLoop, hoff]
  · subst h
    simp [readLoop, hoff, hc]

theorem readLoop_deliver (len : Nat) (stream : Nat → Byte) (h32 : len < 4294967296) :
    ∀ (pre rest : List Int) (off pos : Nat) (buf : Nat → Byte) (calls : List RecvCall)
      (n : Nat), off ≤ len → deliver len off pre = some n →
      off ≤ n ∧ n ≤ len ∧ ∃ made : List RecvCall,
        readLoop len stream (pre ++ rest) off pos buf calls =
          readLoop len stream rest n (pos + (n - off))
            (fun i => if off ≤ i ∧ i < n then stream (pos + (i - off)) else buf i)
            (calls ++ made) ∧
        ∀ c ∈ made, c.off + c.req = len ∧ 0 < c.ret ∧ c.off + c.ret.toNat ≤ len := by
  intro pre
  induction pre with
  | nil =>
    intro rest off pos buf calls n hoff hd
    simp only [deliver, Option.some.injEq] at hd
    subst hd
    refine ⟨le_refl _, hoff, [], ?_, by simp⟩
    have hb : (fun i => if off ≤ i ∧ i < off then stream (pos + (i - off)) else buf i)
        = buf := by
      funext i
      rw [if_neg (by omega)]
    simp [hb]
  | cons c tl ih =>
    intro rest off pos buf calls n hoff hd
    rw [deliver] at hd
    split_ifs at hd with hc
    have hrem : sub32 len off = len - off := sub32_of_le len off hoff h32
    rw [hrem] at hc
    obtain ⟨hc1, hc2⟩ := hc
    have hcn : (c.toNat : Int) = c := Int.toNat_of_nonneg (by omega)
    have hlt : off < len := by omega
    have hle : off + c.toNat ≤ len := by omega
    obtain ⟨h1, h2, made, heq, hmade⟩ := ih rest (off + c.toNat) (pos + c.toNat)
      (recvInto stream pos buf off c.toNat) (calls ++ [⟨off, sub32 len off, c⟩]) n hle hd
    refine ⟨by omega, h2, ⟨off, sub32 len off, c⟩ :: made, ?_, ?_⟩
    · have ha : add32 off c.toNat = off + c.toNat := Nat.mod_eq_of_lt (by omega)
      rw [List.cons_append, readLoop, if_pos hlt]
      dsimp only
      rw [if_neg (by omega), ha, heq]
      have hpos : pos + c.toNat + (n - (off + c.toNat)) = pos + (n - off) := by omega
      have hbuf : (fun i => if off + c.toNat ≤ i ∧ i < n
            then stream (pos + c.toNat + (i - (off + c.toNat)))
            else recvInto stream pos buf off c.toNat i)
          = (fun i => if off ≤ i ∧ i < n then stream (pos + (i - off)) else buf i) := by
        funext i
        unfold recvInto
        by_cases hi1 : off + c.toNat ≤ i ∧ i < n
        · rw [if_pos hi1, if_pos ⟨by omega, hi1.2⟩]
          congr 1
          omega
        · rw [if_neg hi1]
          by_cases hi2 : off ≤ i ∧ i < off + c.toNat
          · rw [if_pos hi2, if_pos ⟨hi2.1, by omega⟩]
          · rw [if_neg hi2, if_neg (by omega)]
      rw [hpos, hbuf, List.append_assoc, List.singleton_append]
    · intro x hx
      rcases List.mem_cons.1 hx with hx | hx
      · subst hx
        refine ⟨?_, ?_, ?_⟩
        · show off + sub32 len off = len
          omega
        · show 0 < c
          omega
        · show off + c.toNat ≤ len
          exact hle
      · exact hmade x hx

theorem receive_started (env : Env) (l : List Int)
    (hstart : env.wsaStartup = 0 ∧ env.sockInvalid = false ∧ env.connectFails = false ∧
      env.mallocNull (declaredLen env) = false)
    (hrecvs : env.recvs = 4 :: l) :
    receive env =
      if (readLoop (declaredLen env) env.stream l 0 4 env.heap []).failed then
        { diag := some .ShortRead, len := declaredLen env,
          buf := (readLoop (declaredLen env) env.stream l 0 4 env.heap []).buf,
          calls := (readLoop (declaredLen env) env.stream l 0 4 env.heap []).calls }
      else
        { diag := none, len := declaredLen env,
          buf := (readLoop (declaredLen env) env.stream l 0 4 env.heap []).buf,
          calls := (readLoop (declaredLen env) env.stream l 0 4 env.heap []).calls } := by
  obtain ⟨h1, h2, h3, h4⟩ := hstart
  unfold receive
  simp [h1, h2, h3, h4, hrecvs]

/-- The length read of the code: when the first call of `recv` returns
anything other than 4, a positive count below 4 included, `main` gives up with
the message of line 40 and never calls `recv` again. -/
theorem receive_length_once (env : Env) (c : Int) (l : List Int)
    (hstart : env.wsaStartup = 0 ∧ env.sockInvalid = false ∧ env.connectFails = false)
    (hrecvs : env.recvs = c :: l) (hc : c ≠ 4) :
    (receive env).diag = some .RecvLength ∧ (receive env).calls = [] ∧
      main env = abort env .RecvLength [] := by
  obtain ⟨h1, h2, h3⟩ := hstart
  have hr : receive env =
      { diag := some .RecvLength, len := 0, buf := env.heap, calls := [] } := by
    unfold receive
    simp [h1, h2, h3, hrecvs, hc]
  refine ⟨by rw [hr], by rw [hr], main_receive_error env _ (by rw [hr])⟩

/-- C8: let the length be read and `malloc` succeed, and let the calls of
`recv` of the payload loop return `pre` followed by `rest`, where each count
of `pre` is between 1 and the remainder requested and `n` bytes are
accumulated by them.  If `n` is the declared length, the loop ends without
failure with `off = len`, every call asked for exactly the bytes up to offset
`len` and stored no byte beyond it, and the buffer holds the first `len`
bytes of the payload stream (and its old contents beyond `len`), the same for
every split.  If `n` is less and the next call returns a count `≤ 0` (or the
peer has closed), the worker exits with -1 and `ShortRead`, and performs no
check of the header, no allocation, no copy and no dispatch. -/
theorem C8_read_exact (env : Env) (pre rest : List Int) (n : Nat)
    (hstart : env.wsaStartup = 0 ∧ env.sockInvalid = false ∧ env.connectFails = false ∧
      env.mallocNull (declaredLen env) = false)
    (hrecvs : env.recvs = 4 :: (pre ++ rest))
    (hpre : deliver (declaredLen env) 0 pre = some n) :
    n ≤ declaredLen env ∧
      (n = declaredLen env →
        (readLoop (declaredLen env) env.stream (pre ++ rest) 0 4 env.heap []).failed = false ∧
        (readLoop (declaredLen env) env.stream (pre ++ rest) 0 4 env.heap []).off =
          declaredLen env ∧
        (∀ c ∈ (readLoop (declaredLen env) env.stream (pre ++ rest) 0 4 env.heap []).calls,
          c.off + c.req = declaredLen env ∧ 0 < c.ret ∧
            c.off + c.ret.toNat ≤ declaredLen env) ∧
        (receive env).diag = none ∧ (receive env).len = declaredLen env ∧
        (receive env).buf =
          (fun i => if i < declaredLen env then env.stream (4 + i) else env.heap i)) ∧
      (n < declaredLen env → (rest = [] ∨ ∃ c tl, rest = c :: tl ∧ c ≤ 0) →
        (readLoop (declaredLen env) env.stream (pre ++ rest) 0 4 env.heap []).failed = true ∧
        (main env).exit = -1 ∧ (main env).exit ≠ 0 ∧
        (main env).diag = some .ShortRead ∧ (main env).trace = [] ∧
        (main env).mem = env.mem) := by
  have h32 : declaredLen env < 4294967296 := word32_lt _ _ _ _ _
  obtain ⟨_, hn, made, heq, hmade⟩ := readLoop_deliver (declaredLen env) env.stream h32
    pre rest 0 4 env.heap [] n (Nat.zero_le _) hpre
  have hrx := receive_started env (pre ++ rest) hstart hrecvs
  refine ⟨hn, ?_, ?_⟩
  · intro hnl
    rw [readLoop_done (declaredLen env) env.stream rest n _ _ _ (by omega)] at heq
    have hbuf : (fun i => if 0 ≤ i ∧ i < n then env.stream (4 + (i - 0)) else env.heap i)
        = (fun i => if i < declaredLen env then env.stream (4 + i) else env.heap i) := by
      funext i
      simp [hnl]
    rw [hbuf] at heq
    rw [hrx, heq]
    refine ⟨rfl, hnl, ?_, rfl, rfl, rfl⟩
    intro c hc
    exact hmade c (by simpa using hc)
  · intro hlt hrest
    have hf := readLoop_closed (declaredLen env) env.stream rest n (4 + (n - 0))
      (fun i => if 0 ≤ i ∧ i < n then env.stream (4 + (i - 0)) else env.heap i)
      ([] ++ made) hlt hrest
    rw [← heq] at hf
    rw [hf] at hrx
    have hm := abort_fields env .ShortRead _ (main_receive_error env .ShortRead (by rw [hrx]; rfl))
    exact ⟨hf, hm⟩

/-- C8 at Scenarios A, B and C: deliveries of 1, 2 and 25 bytes leave the same
buffer and the same outcome as one delivery of 28; a close after 10 of 28
bytes ends in `ShortRead` with exit status -1 and nothing allocated. -/
theorem C8_read_exact_witness :
    deliver 28 0 [1, 2, 25] = some 28 ∧ deliver 28 0 [28] = some 28 ∧
      (receive scenarioB).diag = none ∧
      (receive scenarioB).buf = (receive scenarioA).buf ∧
      (main scenarioB).exit = (main scenarioA).exit ∧
      (main scenarioB).trace = (main scenarioA).trace ∧
      (main scenarioC).exit = -1 ∧ (main scenarioC).diag = some .ShortRead ∧
      (main scenarioC).trace = [] :=
  have hA := (C8_read_exact scenarioA [28] [] 28 (by decide) rfl (by decide)).2.1 (by decide)
  have hB := (C8_read_exact scenarioB [1, 2, 25] [] 28 (by decide) rfl (by decide)).2.1
    (by decide)
  have hC := (C8_read_exact scenarioC [10] [0] 10 (by decide) rfl (by decide)).2.2
    (by decide) (Or.inr ⟨0, [], rfl, by decide⟩)
  ⟨by decide, by decide, hB.2.2.2.1, hB.2.2.2.2.2.trans hA.2.2.2.2.2.symm, by decide,
    by decide, hC.2.1, hC.2.2.2.1, hC.2.2.2.2.1⟩

/-- C9 fails on the code: the length is read by a single call of `recv` (line
39) whose result must be 4.  When the four bytes arrive as one byte and then
three, the first call returns 1 and the worker exits with -1 and the message
of line 40, without reading further, although the same bytes in one delivery
of four lead to the dispatch. -/
theorem C9_split_length_aborts :
    splitLength.recvs = [1, 3, 28] ∧ splitLength.stream = scenarioA.stream ∧
      (receive splitLength).diag = some .RecvLength ∧ (receive splitLength).calls = [] ∧
      (main splitLength).exit = -1 ∧ (main splitLength).diag = some .RecvLength ∧
      (main splitLength).trace = [] ∧
      (main scenarioA).exit = 0 ∧ (main scenarioA).diag = none :=
  ⟨rfl, rfl, by decide, by decide, by decide, by decide, by decide, by decide, by decide⟩

end Felf
